import Mathlib

/-
  Verification development for the bug-tracker repository.

  Shallow embedding of:
  - the Bug record model (client type for bugs, src/client/src),
  - the client statistics computation (BugStats.jsx),
  - the client search/filter pipeline (index.jsx filteredBugs),
  - the client form validation schema (BugForm.jsx bugFormSchema),
  - the server controller endpoints (src/server/src/controllers/bugController.js),
  - the ErrorBoundary component (ErrorBoundary.jsx).
-/

namespace BugTracker

/-- Bug status enumeration. In the source these are the string literals
    "open", "in-progress", "resolved", "closed" (type BugStatus in the client).
    The constructor `opened` embeds the source value "open" (a Lean keyword). -/
inductive BugStatus
  | opened
  | inProgress
  | resolved
  | closed
deriving DecidableEq, Repr

/-- Bug priority enumeration: "low", "medium", "high", "critical". -/
inductive BugPriority
  | low
  | medium
  | high
  | critical
deriving DecidableEq, Repr

/-- The source string each status constructor embeds. -/
def BugStatus.toStr : BugStatus → String
  | .opened => "open"
  | .inProgress => "in-progress"
  | .resolved => "resolved"
  | .closed => "closed"

/-- The source string each priority constructor embeds. -/
def BugPriority.toStr : BugPriority → String
  | .low => "low"
  | .medium => "medium"
  | .high => "high"
  | .critical => "critical"

/-- The Bug entity (client type Bug; the persisted document has the same
    fields). Timestamps are modelled as naturals (milliseconds since epoch). -/
structure Bug where
  id : String
  title : String
  description : String
  priority : BugPriority
  status : BugStatus
  assignee : String
  reporter : String
  environment : String
  reproducible : Bool
  stepsToReproduce : Option String
  tags : List String
  createdAt : Nat
  updatedAt : Nat
deriving DecidableEq, Repr

/-- Result record of the stats computation in BugStats.jsx (the object
    returned from the useMemo). `opened` embeds the source field `open`. -/
structure StatsResult where
  total : Nat
  opened : Nat
  inProgress : Nat
  resolved : Nat
  closed : Nat
  critical : Nat
  high : Nat
  medium : Nat
  low : Nat
  resolvedPercentage : Nat
deriving DecidableEq, Repr

/-- JavaScript Math.round applied to the nonnegative rational num/den
    (den > 0): round half up, that is floor(num/den + 1/2). -/
def mathRound (num den : Nat) : Nat :=
  (2 * num + den) / (2 * den)

/-- Embeds the stats useMemo body of BugStats.jsx: each count is
    bugs.filter(predicate).length, and
    resolvedPercentage = total > 0 ? Math.round((resolved / total) * 100) : 0. -/
def computeStats (bugs : List Bug) : StatsResult :=
  let total := bugs.length
  let opened := (bugs.filter (fun b => b.status = BugStatus.opened)).length
  let inProgress := (bugs.filter (fun b => b.status = BugStatus.inProgress)).length
  let resolved := (bugs.filter (fun b => b.status = BugStatus.resolved)).length
  let closed := (bugs.filter (fun b => b.status = BugStatus.closed)).length
  let critical := (bugs.filter (fun b => b.priority = BugPriority.critical)).length
  let high := (bugs.filter (fun b => b.priority = BugPriority.high)).length
  let medium := (bugs.filter (fun b => b.priority = BugPriority.medium)).length
  let low := (bugs.filter (fun b => b.priority = BugPriority.low)).length
  let resolvedPercentage := if total > 0 then mathRound (100 * resolved) total else 0
  { total := total, opened := opened, inProgress := inProgress,
    resolved := resolved, closed := closed, critical := critical,
    high := high, medium := medium, low := low,
    resolvedPercentage := resolvedPercentage }

/-- Concrete sample record used by witnesses: a resolved high-priority bug. -/
def sampleBugResolved : Bug :=
  { id := "1", title := "Crash on save",
    description := "App crashes when saving a document over 10MB",
    priority := BugPriority.high, status := BugStatus.resolved,
    assignee := "Alice", reporter := "Bob", environment := "Chrome",
    reproducible := false, stepsToReproduce := none,
    tags := [], createdAt := 0, updatedAt := 0 }

/-- Concrete sample record used by witnesses: an open low-priority bug. -/
def sampleBugOpen : Bug :=
  { id := "2", title := "Typo in header",
    description := "The dashboard header misspells the word settings",
    priority := BugPriority.low, status := BugStatus.opened,
    assignee := "Carol", reporter := "Dan", environment := "Firefox",
    reproducible := true, stepsToReproduce := none,
    tags := ["ui"], createdAt := 0, updatedAt := 0 }

/-- Embeds the JavaScript toLowerCase on the character-list level: each
    character lowercased (String.prototype.toLowerCase, ASCII range). -/
def jsToLowerChars (s : String) : List Char :=
  s.data.map Char.toLower

/-- Embeds the JavaScript expression s.includes(sub): true iff sub occurs
    as a contiguous substring of s. -/
def charsIncludes : (s sub : List Char) → Bool
  | [], sub => sub.isEmpty
  | s@(_ :: t), sub => sub.isPrefixOf s || charsIncludes t sub

/-- The search predicate of the filteredBugs useMemo in index.jsx: the
    lowercased term occurs in the lowercased title, description, assignee,
    reporter, or some tag. -/
def matchesSearch (searchTerm : String) (b : Bug) : Bool :=
  charsIncludes (jsToLowerChars b.title) (jsToLowerChars searchTerm) ||
  charsIncludes (jsToLowerChars b.description) (jsToLowerChars searchTerm) ||
  charsIncludes (jsToLowerChars b.assignee) (jsToLowerChars searchTerm) ||
  charsIncludes (jsToLowerChars b.reporter) (jsToLowerChars searchTerm) ||
  b.tags.any (fun tag => charsIncludes (jsToLowerChars tag) (jsToLowerChars searchTerm))

/-- The client filter criteria object (type BugFilters): every recognized
    option is an exact match or unset. -/
structure BugFilters where
  status : Option BugStatus := none
  priority : Option BugPriority := none
  assignee : Option String := none
  reproducible : Option Bool := none
deriving DecidableEq, Repr

/-- The criteria object with every option unset. -/
def noFilters : BugFilters := {}

/-- Modelled from the spec: the predicate underlying filterBugs of the
    useBugs hook, whose source file is not among the available sources.
    Section 4.3: each recognized option is an exact match when set and
    imposes no constraint when unset. -/
def matchesFilters (f : BugFilters) (b : Bug) : Bool :=
  (match f.status with | none => true | some v => decide (b.status = v)) &&
  (match f.priority with | none => true | some v => decide (b.priority = v)) &&
  (match f.assignee with | none => true | some v => decide (b.assignee = v)) &&
  (match f.reproducible with | none => true | some v => decide (b.reproducible = v))

/-- Modelled from the spec: filterBugs of the useBugs hook (source file not
    among the available sources). Section 4.3: returns the subsequence of
    bugs satisfying all set criteria, preserving input order. -/
def filterBugs (f : BugFilters) (bugs : List Bug) : List Bug :=
  bugs.filter (matchesFilters f)

/-- Embeds the filteredBugs useMemo of index.jsx: apply filterBugs, then,
    when searchTerm is truthy (a nonempty string), keep the bugs matched by
    the search predicate. -/
def filteredBugs (bugs : List Bug) (searchTerm : String) (filters : BugFilters) :
    List Bug :=
  let result := filterBugs filters bugs
  if searchTerm = "" then result
  else result.filter (fun b => matchesSearch searchTerm b)

/-- A record none of whose searched fields contains a space character. -/
def sampleBugNoSpace : Bug :=
  { id := "3", title := "Crash", description := "abcdefghij",
    priority := BugPriority.medium, status := BugStatus.opened,
    assignee := "Alice", reporter := "Bob", environment := "Chrome",
    reproducible := false, stepsToReproduce := none,
    tags := [], createdAt := 0, updatedAt := 0 }

/-- Outcome of the delete endpoint as observed by the caller. The source
    controller can only produce the ok shape; notFound is the response the
    specification claims for an absent id, kept so the contrast is
    expressible. -/
inductive DeleteResult
  | ok (message : String)
  | notFound
deriving DecidableEq, Repr

/-- Embeds mongoose Bug.findByIdAndDelete on a store modelled as the list of
    stored records: remove the first record whose id matches, returning the
    store unchanged when none does. -/
def findByIdAndDelete (store : List Bug) (id : String) : List Bug :=
  store.eraseP (fun b => b.id == id)

/-- Embeds deleteBug of bugController.js: await Bug.findByIdAndDelete and
    respond with the confirmation message whether or not a record with the
    id existed. -/
def deleteBug (store : List Bug) (id : String) : DeleteResult × List Bug :=
  (DeleteResult.ok "Bug deleted", findByIdAndDelete store id)

/-- A partial update to a Bug record: the JSON body of the update request.
    Fields absent from the body are none. -/
structure BugPatch where
  title : Option String := none
  description : Option String := none
  priority : Option BugPriority := none
  status : Option BugStatus := none
  assignee : Option String := none
  reporter : Option String := none
  environment : Option String := none
  reproducible : Option Bool := none
  stepsToReproduce : Option String := none
  tags : Option (List String) := none
deriving DecidableEq, Repr

/-- Modelled from the spec: the merge of a patch onto an existing record.
    The mongoose Bug model file is not among the available sources; per
    sections 3 and 4.2, fields present in the patch replace the record's
    values, and id and createdAt never change. -/
def applyPatch (b : Bug) (p : BugPatch) : Bug :=
  { b with
    title := p.title.getD b.title,
    description := p.description.getD b.description,
    priority := p.priority.getD b.priority,
    status := p.status.getD b.status,
    assignee := p.assignee.getD b.assignee,
    reporter := p.reporter.getD b.reporter,
    environment := p.environment.getD b.environment,
    reproducible := p.reproducible.getD b.reproducible,
    stepsToReproduce :=
      match p.stepsToReproduce with
      | some v => some v
      | none => b.stepsToReproduce,
    tags := p.tags.getD b.tags }

/-- The record stored after merging a patch at a given update instant. -/
def updatedRecord (b : Bug) (p : BugPatch) (now : Nat) : Bug :=
  { applyPatch b p with updatedAt := now }

/-- Modelled from the spec: mongoose Bug.findByIdAndUpdate with new true
    (the Bug model file is not among the available sources). When a record
    with the id exists, the patch is merged onto it, updatedAt is set to the
    update instant, and the updated record is returned; otherwise null is
    returned and the store is unchanged. -/
def findByIdAndUpdate (store : List Bug) (id : String) (p : BugPatch)
    (now : Nat) : Option Bug × List Bug :=
  match store.find? (fun b => b.id == id) with
  | some b =>
      let upd := updatedRecord b p now
      (some upd, store.map (fun x => if x.id == id then upd else x))
  | none => (none, store)

/-- Outcome of the update endpoint as observed by the caller: the source
    controller always responds res.json(bug) with status 200, where the
    body is null when the id is absent; notFound is the response the
    specification claims for an absent id. -/
inductive UpdateResult
  | ok (body : Option Bug)
  | notFound
deriving DecidableEq, Repr

/-- Embeds updateBug of bugController.js: await Bug.findByIdAndUpdate with
    new true and respond res.json(bug) unconditionally. -/
def updateBug (store : List Bug) (id : String) (p : BugPatch) (now : Nat) :
    UpdateResult × List Bug :=
  let r := findByIdAndUpdate store id p now
  (UpdateResult.ok r.fst, r.snd)

/-- Input value validated by bugFormSchema in BugForm.jsx. -/
structure BugFormInput where
  title : String
  description : String
  priority : String
  assignee : String
  reporter : String
  environment : String
  reproducible : Bool
  stepsToReproduce : Option String := none
  tags : Option (List String) := none
deriving DecidableEq, Repr

/-- The constrained fields of bugFormSchema. -/
inductive FormField
  | title
  | description
  | priority
  | assignee
  | reporter
  | environment
deriving DecidableEq, Repr

/-- The priority enumeration of bugFormSchema. -/
def priorityEnum : List String := ["low", "medium", "high", "critical"]

/-- The per-field constraint of bugFormSchema in BugForm.jsx: title 1 to
    100 characters, description 10 to 1000 characters, priority in the
    enumeration, and assignee, reporter, environment at least 1 character. -/
def fieldValid (i : BugFormInput) : FormField → Bool
  | FormField.title =>
      decide (1 ≤ i.title.length) && decide (i.title.length ≤ 100)
  | FormField.description =>
      decide (10 ≤ i.description.length) && decide (i.description.length ≤ 1000)
  | FormField.priority => priorityEnum.contains i.priority
  | FormField.assignee => decide (1 ≤ i.assignee.length)
  | FormField.reporter => decide (1 ≤ i.reporter.length)
  | FormField.environment => decide (1 ≤ i.environment.length)

/-- The constrained fields in schema declaration order. -/
def formFields : List FormField :=
  [FormField.title, FormField.description, FormField.priority,
   FormField.assignee, FormField.reporter, FormField.environment]

/-- Result of parsing a form value against bugFormSchema: success with the
    parsed value (tags defaulted to the empty array) or an error carrying
    the issue list. -/
inductive ParseResult
  | success (value : BugFormInput)
  | error (issues : List FormField)
deriving DecidableEq, Repr

/-- Embeds the zod object parse of bugFormSchema: every field is checked
    and every failing field contributes an issue; the parse succeeds exactly
    when no issue exists, applying the tags default. -/
def bugFormSchemaParse (i : BugFormInput) : ParseResult :=
  let issues := formFields.filter (fun f => ! fieldValid i f)
  if issues.isEmpty then
    ParseResult.success { i with tags := some (i.tags.getD []) }
  else
    ParseResult.error issues

/-- A concrete form input violating the title, description, priority,
    assignee and environment constraints while satisfying the reporter
    constraint. -/
def sampleBadInput : BugFormInput :=
  { title := "", description := "short", priority := "urgent",
    assignee := "", reporter := "Bob", environment := "",
    reproducible := false }

/-- Abstract rendered output of the ErrorBoundary component: an opaque node
    supplied by the caller, or the default error card built from the caught
    error message and component stack. -/
inductive RenderOutput
  | node (tag : String)
  | errorCard (error : Option String) (errorInfo : Option String)
deriving DecidableEq, Repr

/-- Props of ErrorBoundary in ErrorBoundary.jsx: children and an optional
    fallback. -/
structure EBProps where
  children : RenderOutput
  fallback : Option RenderOutput := none
deriving DecidableEq, Repr

/-- State of ErrorBoundary: the hasError flag plus the caught error message
    and component stack, both initially absent. -/
structure EBState where
  hasError : Bool
  error : Option String := none
  errorInfo : Option String := none
deriving DecidableEq, Repr

/-- Embeds the ErrorBoundary constructor: state starts as hasError false. -/
def ebInitialState : EBState := { hasError := false }

/-- Embeds getDerivedStateFromError: an error marks the state as caught. -/
def getDerivedStateFromError (error : String) : EBState :=
  { hasError := true, error := some error }

/-- Embeds componentDidCatch: setState records the error and error info. -/
def componentDidCatch (s : EBState) (error errorInfo : String) : EBState :=
  { s with error := some error, errorInfo := some errorInfo }

/-- Embeds handleRetry: setState clears hasError, error and errorInfo. -/
def handleRetry (_s : EBState) : EBState :=
  { hasError := false, error := none, errorInfo := none }

/-- Embeds ErrorBoundary.render: with an error caught, the supplied
    fallback when given and the default error card otherwise; with no error
    caught, the children unchanged. -/
def ebRender (p : EBProps) (s : EBState) : RenderOutput :=
  if s.hasError then
    match p.fallback with
    | some f => f
    | none => RenderOutput.errorCard s.error s.errorInfo
  else p.children

lemma charsIncludes_iff (s sub : List Char) :
    charsIncludes s sub = true ↔ sub <:+: s := by
  induction s with
  | nil => simp [charsIncludes, List.isEmpty_iff]
  | cons a t ih =>
      simp [charsIncludes, List.infix_cons_iff, ih, List.isPrefixOf_iff_prefix]

lemma charsIncludes_nil (s : List Char) : charsIncludes s [] = true := by
  cases s <;> simp [charsIncludes]

lemma matchesSearch_empty (b : Bug) : matchesSearch "" b = true := by
  simp [matchesSearch, jsToLowerChars, charsIncludes_nil]

lemma matchesFilters_iff (f : BugFilters) (b : Bug) :
    matchesFilters f b = true ↔
      (∀ v, f.status = some v → b.status = v) ∧
      (∀ v, f.priority = some v → b.priority = v) ∧
      (∀ v, f.assignee = some v → b.assignee = v) ∧
      (∀ v, f.reproducible = some v → b.reproducible = v) := by
  obtain ⟨s, p, a, r⟩ := f
  cases s <;> cases p <;> cases a <;> cases r <;>
    simp [matchesFilters] <;> aesop

lemma matchesFilters_noFilters (b : Bug) : matchesFilters noFilters b = true := rfl

lemma mem_formFields (f : FormField) : f ∈ formFields := by
  cases f <;> simp [formFields]

lemma eraseP_id_ne (store : List Bug) (id : String)
    (h : (store.map Bug.id).Nodup) :
    ∀ b ∈ store.eraseP (fun x => x.id == id), b.id ≠ id := by
  induction store with
  | nil => simp
  | cons a t ih =>
      simp only [List.map_cons, List.nodup_cons] at h
      by_cases ha : a.id = id
      · rw [List.eraseP_cons_of_pos (by simp [ha])]
        intro b hb hbid
        apply h.1
        have hmap : b.id ∈ t.map Bug.id := List.mem_map.mpr ⟨b, hb, rfl⟩
        rwa [hbid, ← ha] at hmap
      · rw [List.eraseP_cons_of_neg (by simp [ha])]
        intro b hb
        rcases List.mem_cons.mp hb with rfl | hb
        · exact ha
        · exact ih h.2 b hb

lemma filterBugs_noFilters (bugs : List Bug) : filterBugs noFilters bugs = bugs := by
  simp [filterBugs, matchesFilters_noFilters]

lemma status_filter_lengths_sum (bugs : List Bug) :
    (bugs.filter (fun b => b.status = BugStatus.opened)).length +
    (bugs.filter (fun b => b.status = BugStatus.inProgress)).length +
    (bugs.filter (fun b => b.status = BugStatus.resolved)).length +
    (bugs.filter (fun b => b.status = BugStatus.closed)).length = bugs.length := by
  induction bugs with
  | nil => simp
  | cons b bs ih =>
    cases h : b.status <;> simp [List.filter_cons, h] <;> omega

lemma priority_filter_lengths_sum (bugs : List Bug) :
    (bugs.filter (fun b => b.priority = BugPriority.critical)).length +
    (bugs.filter (fun b => b.priority = BugPriority.high)).length +
    (bugs.filter (fun b => b.priority = BugPriority.medium)).length +
    (bugs.filter (fun b => b.priority = BugPriority.low)).length = bugs.length := by
  induction bugs with
  | nil => simp
  | cons b bs ih =>
    cases h : b.priority <;> simp [List.filter_cons, h] <;> omega

lemma mathRound_le_100 (r t : Nat) (hrt : r ≤ t) (ht : 0 < t) :
    mathRound (100 * r) t ≤ 100 := by
  unfold mathRound
  have h2 : 2 * (100 * r) + t < 101 * (2 * t) := by omega
  have := (Nat.div_lt_iff_lt_mul (by omega : 0 < 2 * t)).mpr h2
  omega

/-- C4: for every collection of bugs, computeStats returns counts where the
    four status counts sum to total, the four priority counts sum to total,
    resolvedPercentage equals round(resolved / total * 100) when total > 0
    and 0 when total = 0, and resolvedPercentage is at most 100
    (all counts are naturals, hence non-negative). -/
theorem computeStats_correct (bugs : List Bug) :
    (computeStats bugs).opened + (computeStats bugs).inProgress +
      (computeStats bugs).resolved + (computeStats bugs).closed =
      (computeStats bugs).total ∧
    (computeStats bugs).critical + (computeStats bugs).high +
      (computeStats bugs).medium + (computeStats bugs).low =
      (computeStats bugs).total ∧
    ((computeStats bugs).total > 0 →
      (computeStats bugs).resolvedPercentage =
        mathRound (100 * (computeStats bugs).resolved) (computeStats bugs).total) ∧
    ((computeStats bugs).total = 0 → (computeStats bugs).resolvedPercentage = 0) ∧
    (computeStats bugs).resolvedPercentage ≤ 100 := by
  simp only [computeStats]
  refine ⟨?_, ?_, ?_, ?_, ?_⟩
  · exact status_filter_lengths_sum bugs
  · exact priority_filter_lengths_sum bugs
  · intro h
    rw [if_pos h]
  · intro h
    rw [if_neg (by omega)]
  · by_cases h : bugs.length > 0
    · rw [if_pos h]
      exact mathRound_le_100 _ _ (List.length_filter_le _ _) h
    · rw [if_neg h]; omega

/-- C4 witness: computeStats_correct applied at a concrete two-bug
    collection, with its positivity hypothesis discharged by decide. -/
theorem computeStats_correct_witness :
    (computeStats [sampleBugResolved, sampleBugOpen]).total > 0 ∧
    (computeStats [sampleBugResolved, sampleBugOpen]).resolvedPercentage =
      mathRound (100 * (computeStats [sampleBugResolved, sampleBugOpen]).resolved)
        (computeStats [sampleBugResolved, sampleBugOpen]).total :=
  ⟨by decide,
   (computeStats_correct [sampleBugResolved, sampleBugOpen]).2.2.1 (by decide)⟩

/-- C5: for every collection, term, and criteria, the combined pipeline
    returns exactly the bugs satisfying both the filter criteria and the
    search predicate (AND between filter and search), and the search
    predicate holds iff the lowercased term is a contiguous substring of the
    lowercased title, description, assignee, reporter, or some tag
    (OR across fields). -/
theorem filteredBugs_search_semantics (bugs : List Bug) (term : String)
    (f : BugFilters) :
    filteredBugs bugs term f =
      bugs.filter (fun b => matchesFilters f b && matchesSearch term b) ∧
    ∀ b, matchesSearch term b = true ↔
      (jsToLowerChars term <:+: jsToLowerChars b.title ∨
       jsToLowerChars term <:+: jsToLowerChars b.description ∨
       jsToLowerChars term <:+: jsToLowerChars b.assignee ∨
       jsToLowerChars term <:+: jsToLowerChars b.reporter ∨
       ∃ tag ∈ b.tags, jsToLowerChars term <:+: jsToLowerChars tag) := by
  constructor
  · unfold filteredBugs
    by_cases h : term = ""
    · subst h
      simp [filterBugs, matchesSearch_empty]
    · rw [if_neg h]
      simp [filterBugs, List.filter_filter, Bool.and_comm]
  · intro b
    simp only [matchesSearch, Bool.or_eq_true, charsIncludes_iff, List.any_eq_true]
    tauto

/-- C6 counterexample: the claim says a whitespace-only term leaves the
    input unchanged, but the source only skips the search when the term is
    falsy (the empty string); the single-space term is truthy, is matched
    literally, and eliminates a record containing no space. -/
theorem search_whitespace_not_identity :
    (∀ c ∈ " ".data, c = ' ') ∧
    filteredBugs [sampleBugNoSpace] " " noFilters = [] ∧
    ([] : List Bug) ≠ [sampleBugNoSpace] :=
  ⟨by decide, by decide, by decide⟩

/-- C6 amended: search with the empty term is the identity on the input
    collection; a whitespace-only nonempty term is instead matched literally
    as a substring like any other term. -/
theorem search_empty_identity (bugs : List Bug) :
    filteredBugs bugs "" noFilters = bugs := by
  simp [filteredBugs, filterBugs_noFilters]

/-- C7: filter with all criteria unset is the identity on the input
    sequence, and in general the result is the subsequence of the input
    (order preserved) whose members satisfy every set criterion, unset
    criteria imposing no constraint. -/
theorem filterBugs_unset_criteria (f : BugFilters) (bugs : List Bug) :
    filterBugs noFilters bugs = bugs ∧
    (filterBugs f bugs).Sublist bugs ∧
    ∀ b, b ∈ filterBugs f bugs ↔
      b ∈ bugs ∧
      (∀ v, f.status = some v → b.status = v) ∧
      (∀ v, f.priority = some v → b.priority = v) ∧
      (∀ v, f.assignee = some v → b.assignee = v) ∧
      (∀ v, f.reproducible = some v → b.reproducible = v) := by
  refine ⟨filterBugs_noFilters bugs, List.filter_sublist bugs, fun b => ?_⟩
  rw [filterBugs, List.mem_filter, matchesFilters_iff]

/-- C7 witness: the theorem applied to a singleton collection and a
    criteria object whose only set option matches the record. -/
theorem filterBugs_unset_criteria_witness :
    sampleBugOpen ∈ filterBugs { status := some BugStatus.opened } [sampleBugOpen] :=
  ((filterBugs_unset_criteria { status := some BugStatus.opened }
      [sampleBugOpen]).2.2 sampleBugOpen).mpr
    ⟨by decide, fun v hv => Option.some.inj hv, fun v hv => Option.noConfusion hv,
     fun v hv => Option.noConfusion hv, fun v hv => Option.noConfusion hv⟩

/-- C9: the combined filter-and-search result is a subsequence of the input
    collection: order-preserving (Sublist), every returned bug is an element
    of the input, and no bug occurs more often in the output than in the
    input. -/
theorem filteredBugs_subsequence (bugs : List Bug) (term : String)
    (f : BugFilters) :
    (filteredBugs bugs term f).Sublist bugs ∧
    (∀ b, b ∈ filteredBugs bugs term f → b ∈ bugs) ∧
    ∀ b, (filteredBugs bugs term f).count b ≤ bugs.count b := by
  have hsub : (filteredBugs bugs term f).Sublist bugs := by
    unfold filteredBugs filterBugs
    by_cases h : term = ""
    · rw [if_pos h]; exact List.filter_sublist _
    · rw [if_neg h]
      exact (List.filter_sublist _).trans (List.filter_sublist _)
  exact ⟨hsub, fun b hb => hsub.subset hb, fun b => hsub.count_le b⟩

/-- C9 witness: the theorem applied to a concrete singleton collection,
    its membership hypothesis discharged by evaluation. -/
theorem filteredBugs_subsequence_witness : sampleBugOpen ∈ [sampleBugOpen] :=
  (filteredBugs_subsequence [sampleBugOpen] "typo" noFilters).2.1 sampleBugOpen
    (by decide)

/-- C1 counterexample: deleting an id with no live record (the empty store)
    responds with the success confirmation, not NotFoundError, and the
    second of two consecutive deletes of the same id does too. -/
theorem deleteBug_not_notFound :
    (deleteBug [] "1").fst = DeleteResult.ok "Bug deleted" ∧
    (deleteBug (deleteBug [sampleBugResolved] "1").snd "1").fst =
      DeleteResult.ok "Bug deleted" ∧
    DeleteResult.ok "Bug deleted" ≠ DeleteResult.notFound :=
  ⟨rfl, rfl, by decide⟩

/-- C1 amended: delete never fails with NotFoundError: it responds with the
    confirmation message whether or not a live record has the id, a second
    delete of the same id responds with the confirmation as well (the
    observable response is idempotent), and — the stored ids being distinct
    — the record with the id is removed while every other record is kept. -/
theorem deleteBug_contract (store : List Bug) (id : String) :
    (deleteBug store id).fst = DeleteResult.ok "Bug deleted" ∧
    (deleteBug (deleteBug store id).snd id).fst = DeleteResult.ok "Bug deleted" ∧
    ((deleteBug store id).snd).Sublist store ∧
    (∀ b ∈ store, b.id ≠ id → b ∈ (deleteBug store id).snd) ∧
    ((store.map Bug.id).Nodup → ∀ b ∈ (deleteBug store id).snd, b.id ≠ id) := by
  refine ⟨rfl, rfl, List.eraseP_sublist store, ?_, fun h => eraseP_id_ne store id h⟩
  intro b hb hbid
  exact (List.mem_eraseP_of_neg (by simp [hbid])).mpr hb

/-- C1 witness: the amended contract applied to a concrete two-record
    store, its hypotheses discharged by evaluation. -/
theorem deleteBug_contract_witness : sampleBugOpen.id ≠ "1" :=
  (deleteBug_contract [sampleBugResolved, sampleBugOpen] "1").2.2.2.2 (by decide)
    sampleBugOpen (by decide)

/-- C2 counterexample: updating an id with no live record (the empty store)
    responds with a 200 success whose JSON body is null, not NotFoundError. -/
theorem updateBug_not_notFound :
    (updateBug [] "1" {} 5).fst = UpdateResult.ok none ∧
    UpdateResult.ok (none : Option Bug) ≠ UpdateResult.notFound :=
  ⟨rfl, by decide⟩

/-- C2 amended: when no live record has the id, update responds with a
    success carrying a null body (never NotFoundError) and leaves the store
    unchanged; only when a record with the id is found is the patch merged
    onto it and the updated Bug returned. -/
theorem updateBug_contract (store : List Bug) (id : String) (p : BugPatch)
    (now : Nat) :
    ((∀ b ∈ store, b.id ≠ id) →
      (updateBug store id p now).fst = UpdateResult.ok none ∧
      (updateBug store id p now).snd = store) ∧
    (∀ b, store.find? (fun x => x.id == id) = some b →
      (updateBug store id p now).fst =
        UpdateResult.ok (some (updatedRecord b p now))) := by
  constructor
  · intro h
    have hf : store.find? (fun b => b.id == id) = none := by
      rw [List.find?_eq_none]
      intro x hx
      simpa using h x hx
    constructor <;> simp [updateBug, findByIdAndUpdate, hf]
  · intro b hb
    simp [updateBug, findByIdAndUpdate, hb]

/-- C2 witness: the amended contract applied at a concrete store and an
    absent id, its absence hypothesis discharged by evaluation. -/
theorem updateBug_contract_witness :
    (updateBug [sampleBugResolved] "zzz" {} 5).fst = UpdateResult.ok none ∧
    (updateBug [sampleBugResolved] "zzz" {} 5).snd = [sampleBugResolved] :=
  (updateBug_contract [sampleBugResolved] "zzz" {} 5).1 (by decide)

/-- C3: bugFormSchema rejects every input violating a field constraint —
    the parse is an error, never a success — the error enumerates exactly
    the violated fields rather than only the first, and a success implies no
    field is violated. -/
theorem bugFormSchema_rejects_and_enumerates (i : BugFormInput) :
    (∀ f, fieldValid i f = false →
      bugFormSchemaParse i =
        ParseResult.error (formFields.filter (fun g => ! fieldValid i g))) ∧
    (∀ issues, bugFormSchemaParse i = ParseResult.error issues →
      ∀ f, f ∈ issues ↔ fieldValid i f = false) ∧
    (∀ v, bugFormSchemaParse i = ParseResult.success v →
      ∀ f, fieldValid i f = true) := by
  have hfilter : ∀ f, f ∈ formFields.filter (fun g => ! fieldValid i g) ↔
      fieldValid i f = false := by
    intro f
    rw [List.mem_filter]
    simp [mem_formFields]
  refine ⟨?_, ?_, ?_⟩
  · intro f hf
    have hne : ¬ (formFields.filter (fun g => ! fieldValid i g)).isEmpty = true := by
      rw [List.isEmpty_iff]
      exact List.ne_nil_of_mem ((hfilter f).mpr hf)
    simp only [bugFormSchemaParse]
    rw [if_neg hne]
  · intro issues hiss f
    by_cases he : (formFields.filter (fun g => ! fieldValid i g)).isEmpty = true
    · simp only [bugFormSchemaParse] at hiss
      rw [if_pos he] at hiss
      exact absurd hiss (by simp)
    · simp only [bugFormSchemaParse] at hiss
      rw [if_neg he] at hiss
      injection hiss with hiss
      subst hiss
      exact hfilter f
  · intro v hv f
    by_cases he : (formFields.filter (fun g => ! fieldValid i g)).isEmpty = true
    · have hnil : ∀ g ∈ formFields, ¬ (! fieldValid i g) = true :=
        List.filter_eq_nil_iff.mp (List.isEmpty_iff.mp he)
      simpa using hnil f (mem_formFields f)
    · simp only [bugFormSchemaParse] at hv
      rw [if_neg he] at hv
      exact absurd hv (by simp)

/-- C3 witness: the theorem applied to a concrete invalid input with its
    violated-title hypothesis discharged by evaluation; the issue list holds
    all five violated fields, not just the first. -/
theorem bugFormSchema_witness :
    bugFormSchemaParse sampleBadInput =
      ParseResult.error
        (formFields.filter (fun g => ! fieldValid sampleBadInput g)) ∧
    formFields.filter (fun g => ! fieldValid sampleBadInput g) =
      [FormField.title, FormField.description, FormField.priority,
       FormField.assignee, FormField.environment] :=
  ⟨(bugFormSchema_rejects_and_enumerates sampleBadInput).1 FormField.title
      (by decide),
   by decide⟩

/-- C8: the record stored by an update keeps every field not present in the
    patch — id and createdAt unconditionally — and, the update instant being
    later than the record's updatedAt, its updatedAt strictly increases. -/
theorem update_frame (b : Bug) (p : BugPatch) (now : Nat) :
    ((updatedRecord b p now).id = b.id ∧
     (updatedRecord b p now).createdAt = b.createdAt ∧
     (p.title = none → (updatedRecord b p now).title = b.title) ∧
     (p.description = none →
       (updatedRecord b p now).description = b.description) ∧
     (p.priority = none → (updatedRecord b p now).priority = b.priority) ∧
     (p.status = none → (updatedRecord b p now).status = b.status) ∧
     (p.assignee = none → (updatedRecord b p now).assignee = b.assignee) ∧
     (p.reporter = none → (updatedRecord b p now).reporter = b.reporter) ∧
     (p.environment = none →
       (updatedRecord b p now).environment = b.environment) ∧
     (p.reproducible = none →
       (updatedRecord b p now).reproducible = b.reproducible) ∧
     (p.stepsToReproduce = none →
       (updatedRecord b p now).stepsToReproduce = b.stepsToReproduce) ∧
     (p.tags = none → (updatedRecord b p now).tags = b.tags)) ∧
    (b.updatedAt < now → b.updatedAt < (updatedRecord b p now).updatedAt) := by
  constructor
  · refine ⟨rfl, rfl, ?_, ?_, ?_, ?_, ?_, ?_, ?_, ?_, ?_, ?_⟩ <;>
      (intro h; simp [updatedRecord, applyPatch, h])
  · intro h
    simpa [updatedRecord] using h

/-- C8 witness: the frame theorem applied at a concrete record, a patch
    setting only the status, and update instant 5, hypotheses discharged by
    evaluation. -/
theorem update_frame_witness :
    (updatedRecord sampleBugResolved { status := some BugStatus.closed } 5).title =
      sampleBugResolved.title ∧
    sampleBugResolved.updatedAt <
      (updatedRecord sampleBugResolved { status := some BugStatus.closed } 5).updatedAt :=
  ⟨(update_frame sampleBugResolved { status := some BugStatus.closed } 5).1.2.2.1 rfl,
   (update_frame sampleBugResolved { status := some BugStatus.closed } 5).2 (by decide)⟩

/-- C10: ErrorBoundary rendering is a function of the hasError state: with
    no error caught it renders the children unchanged; with an error caught
    it renders the supplied fallback when given and the default error card
    otherwise; and handleRetry resets hasError, error and errorInfo to the
    initial state, after which the children are rendered again. -/
theorem errorBoundary_render_spec (p : EBProps) (s : EBState) :
    (s.hasError = false → ebRender p s = p.children) ∧
    (s.hasError = true → p.fallback = none →
      ebRender p s = RenderOutput.errorCard s.error s.errorInfo) ∧
    (s.hasError = true → ∀ f, p.fallback = some f → ebRender p s = f) ∧
    handleRetry s = ebInitialState ∧
    ebRender p (handleRetry s) = p.children := by
  refine ⟨?_, ?_, ?_, rfl, rfl⟩
  · intro h; simp [ebRender, h]
  · intro h hf; simp [ebRender, h, hf]
  · intro h f hf; simp [ebRender, h, hf]

/-- C10 witness: the theorem applied at concrete props and an error state
    with no fallback, hypotheses discharged by rfl. -/
theorem errorBoundary_render_spec_witness :
    ebRender { children := RenderOutput.node "app" }
        { hasError := true, error := some "boom" } =
      RenderOutput.errorCard (some "boom") none :=
  (errorBoundary_render_spec { children := RenderOutput.node "app" }
      { hasError := true, error := some "boom" }).2.1 rfl rfl

end BugTracker
